import Mathlib

/-!
Shallow embedding of `app.py`, a Streamlit dashboard that loads CSV files
from four categories (trend / blog / shop / news), filters them by keyword
and date range, and renders charts, including a TF-IDF term ranking.

Modelling conventions:
* Dates are modelled as natural numbers in `YYYYMMDD` form (order-isomorphic
  to calendar dates for the comparisons performed by the script); a `NaT`
  produced by `pd.to_datetime(..., errors='coerce')` is `none`.
* A pandas table is `Option (List row)`: `none` models the column-less
  `pd.DataFrame()` returned when a category has zero files (accessing a
  column of it raises `KeyError`), `some rows` models a concatenated frame
  that has the category's columns.
* CSV parsing is abstracted: a raw file carries typed rows whose date
  fields already reflect the `to_datetime` coercion.
* Python exceptions surface as `Except PyErr`.
-/

set_option maxRecDepth 10000

/-- Python `needle` is a prefix of `hay` (on character lists). -/
def listStartsWith : List Char → List Char → Bool
  | [], _ => true
  | _ :: _, [] => false
  | a :: as, b :: bs => a == b && listStartsWith as bs

/-- Python `needle in hay` (substring containment) on character lists. -/
def listHasSub (needle : List Char) : List Char → Bool
  | [] => listStartsWith needle []
  | c :: cs => listStartsWith needle (c :: cs) || listHasSub needle cs

/-- Python `needle in hay` for strings (the `'blog_' in filename` tests). -/
def pyIn (needle hay : String) : Bool :=
  listHasSub needle.data hay.data

/-- Python `str.replace` on character lists, replacing every
non-overlapping occurrence of `old` (nonempty in all uses) by `new`, left
to right.  The `fuel` argument (instantiated with the list length, an
upper bound on the number of steps) makes the recursion structural so
that the definition reduces inside the kernel. -/
def replaceAux (old new : List Char) : Nat → List Char → List Char
  | _, [] => []
  | 0, l => l
  | fuel + 1, c :: cs =>
    if listStartsWith old (c :: cs) then
      new ++ replaceAux old new fuel (List.drop (old.length - 1) cs)
    else
      c :: replaceAux old new fuel cs

/-- Python `s.replace(old, new)` for the nonempty `old` patterns used in
`load_and_preprocess_data`. -/
def pyReplace (s old new : String) : String :=
  String.mk (replaceAux old.data new.data s.data.length s.data)

/-- Python `s.rsplit(sep, 1)[0]`: everything before the last occurrence of
`sep`, or the whole string when `sep` does not occur. -/
def rsplitHead (sep : Char) (s : String) : String :=
  match (s.data.reverse.dropWhile (fun c => c != sep)) with
  | [] => s
  | _ :: rest => String.mk rest.reverse

/-- Keyword extraction chain of `load_and_preprocess_data` (lines 26-35):
`blog_`, then `shopping_trend_`, then `shop_`, then `news_`; `none` models
the `continue` of the final `else`. -/
def extractKeyword (filename : String) : Option String :=
  if pyIn "blog_" filename then
    some (rsplitHead '_' (pyReplace filename "blog_" ""))
  else if pyIn "shopping_trend_" filename then
    some (rsplitHead '_' (pyReplace filename "shopping_trend_" ""))
  else if pyIn "shop_" filename then
    some (rsplitHead '_' (pyReplace filename "shop_" ""))
  else if pyIn "news_" filename then
    some (rsplitHead '_' (pyReplace filename "news_" ""))
  else
    none

/-- The four data categories of the dashboard. -/
inductive Category where
  | blog : Category
  | trend : Category
  | shop : Category
  | news : Category
deriving DecidableEq

/-- Category dispatch chain of `load_and_preprocess_data` (lines 41-51).
Note the second test is `'shopping_trend' in filename`, without the
trailing underscore, unlike the keyword-extraction chain. -/
def classify (filename : String) : Option Category :=
  if pyIn "blog_" filename then some Category.blog
  else if pyIn "shopping_trend" filename then some Category.trend
  else if pyIn "shop_" filename then some Category.shop
  else if pyIn "news_" filename then some Category.news
  else none

/-- A raw CSV row: the union of the columns the script reads, with date
columns already carrying the result of the `to_datetime` coercion
(`none` = `NaT`). -/
structure RawRow where
  postdate : Option Nat
  period : Option Nat
  pubDate : Option Nat
  ratioVal : Int
  bloggername : String
  title : Option String
  description : Option String
  lprice : Int
  brand : String
deriving DecidableEq

/-- A raw CSV file: its basename and its parsed rows. -/
structure RawFile where
  name : String
  rows : List RawRow
deriving DecidableEq

/-- Helper building a blog-shaped raw row. -/
def blogRaw (pd : Option Nat) (bn : String) (ti de : Option String) : RawRow :=
  ⟨pd, none, none, 0, bn, ti, de, 0, ""⟩

/-- Helper building a trend-shaped raw row. -/
def trendRaw (p : Option Nat) (ra : Int) : RawRow :=
  ⟨none, p, none, ra, "", none, none, 0, ""⟩

/-- Helper building a shop-shaped raw row. -/
def shopRaw (lp : Int) (br : String) : RawRow :=
  ⟨none, none, none, 0, "", none, none, lp, br⟩

/-- Helper building a news-shaped raw row. -/
def newsRaw (pub : Option Nat) (ti : Option String) : RawRow :=
  ⟨none, none, pub, 0, "", ti, none, 0, ""⟩

/-- A row of the concatenated blog table (`target_keyword` appended). -/
structure BlogRow where
  target_keyword : String
  postdate : Option Nat
  bloggername : String
  title : Option String
  description : Option String
deriving DecidableEq

/-- A row of the concatenated shop table. -/
structure ShopRow where
  target_keyword : String
  lprice : Int
  brand : String
deriving DecidableEq

/-- A row of the concatenated trend table. -/
structure TrendRow where
  target_keyword : String
  period : Option Nat
  ratioVal : Int
deriving DecidableEq

/-- A row of the concatenated news table. -/
structure NewsRow where
  target_keyword : String
  pubDate : Option Nat
  title : Option String
deriving DecidableEq

/-- Annotate a raw row with the extracted keyword, blog columns. -/
def toBlogRow (kw : String) (r : RawRow) : BlogRow :=
  ⟨kw, r.postdate, r.bloggername, r.title, r.description⟩

/-- Annotate a raw row with the extracted keyword, shop columns. -/
def toShopRow (kw : String) (r : RawRow) : ShopRow :=
  ⟨kw, r.lprice, r.brand⟩

/-- Annotate a raw row with the extracted keyword, trend columns. -/
def toTrendRow (kw : String) (r : RawRow) : TrendRow :=
  ⟨kw, r.period, r.ratioVal⟩

/-- Annotate a raw row with the extracted keyword, news columns. -/
def toNewsRow (kw : String) (r : RawRow) : NewsRow :=
  ⟨kw, r.pubDate, r.title⟩

/-- A pandas table: `none` is the column-less `pd.DataFrame()` placeholder
for a category with zero files, `some rows` a frame with columns. -/
abbrev PTable (α : Type) : Type := Option (List α)

/-- The `pd.concat(lst, ignore_index=True) if lst else pd.DataFrame()`
pattern of lines 55-58. -/
def concatOr (ls : List (List α)) : PTable α :=
  if ls.isEmpty then none else some ls.flatten

/-- Accumulator of the per-category file lists built by the loader loop. -/
structure LoadAcc where
  blog_list : List (List BlogRow)
  shop_list : List (List ShopRow)
  trend_list : List (List TrendRow)
  news_list : List (List NewsRow)

/-- Body of the `for f in files` loop of `load_and_preprocess_data`:
extract the keyword (or `continue`), then dispatch the file's rows to one
of the four category lists. -/
def loadStep (acc : LoadAcc) (f : RawFile) : LoadAcc :=
  match extractKeyword f.name with
  | none => acc
  | some kw =>
    match classify f.name with
    | some Category.blog =>
      ⟨acc.blog_list ++ [f.rows.map (toBlogRow kw)], acc.shop_list,
        acc.trend_list, acc.news_list⟩
    | some Category.trend =>
      ⟨acc.blog_list, acc.shop_list,
        acc.trend_list ++ [f.rows.map (toTrendRow kw)], acc.news_list⟩
    | some Category.shop =>
      ⟨acc.blog_list, acc.shop_list ++ [f.rows.map (toShopRow kw)],
        acc.trend_list, acc.news_list⟩
    | some Category.news =>
      ⟨acc.blog_list, acc.shop_list, acc.trend_list,
        acc.news_list ++ [f.rows.map (toNewsRow kw)]⟩
    | none => acc

/-- Model of `load_and_preprocess_data`: classify every file, concatenate each
category (or leave the column-less empty frame), returning
`(blog_df, shop_df, trend_df, news_df)`. -/
def load_and_preprocess_data (files : List RawFile) :
    PTable BlogRow × PTable ShopRow × PTable TrendRow × PTable NewsRow :=
  let acc := files.foldl loadStep ⟨[], [], [], []⟩
  (concatOr acc.blog_list, concatOr acc.shop_list,
    concatOr acc.trend_list, concatOr acc.news_list)

/-- Model of `df.empty` for our table model. -/
def tableEmpty : PTable α → Bool
  | none => true
  | some l => l.isEmpty

/-- Rows of a table (`[]` for the column-less empty frame). -/
def rowsOf : PTable α → List α
  | none => []
  | some l => l

/-- Kernel-reducible lexicographic comparison on character lists (the
code-point order Python `sorted` and sklearn's feature sorting use;
`String.le` itself is defined by well-founded recursion and does not
reduce definitionally). -/
def lexLe : List Char → List Char → Bool
  | [], _ => true
  | _ :: _, [] => false
  | a :: as, b :: bs => if a == b then lexLe as bs else decide (a < b)

/-- Alphabetical (code-point) order on strings. -/
def strLe (a b : String) : Prop := lexLe a.data b.data = true

instance : DecidableRel strLe :=
  fun a b => inferInstanceAs (Decidable (lexLe a.data b.data = true))

/-- Line 65: `sorted(trend_df['target_keyword'].unique().tolist()) if not
trend_df.empty else []`. -/
def all_keywords (trend_df : PTable TrendRow) : List String :=
  if tableEmpty trend_df then []
  else
    List.insertionSort strLe
      (((rowsOf trend_df).map (fun r => r.target_keyword)).dedup)

/-- Lines 69-74: the date widget's value when the trend table is nonempty,
`[]` otherwise. -/
def date_range_of (trend_df : PTable TrendRow) (userRange : List Nat) :
    List Nat :=
  if tableEmpty trend_df then [] else userRange

/-- A Python exception escaping the script. -/
inductive PyErr where
  | keyError : String → PyErr
deriving DecidableEq

/-- Boolean mask of line 79: keyword selected and `period` within the
inclusive date range (comparisons against `NaT` are false). -/
def trendKeep (sel : List String) (s e : Nat) (r : TrendRow) : Bool :=
  decide (r.target_keyword ∈ sel) &&
    (match r.period with
     | some d => decide (s ≤ d) && decide (d ≤ e)
     | none => false)

/-- Boolean mask of line 82: keyword selected and `postdate` within the
inclusive date range. -/
def blogKeep (sel : List String) (s e : Nat) (r : BlogRow) : Bool :=
  decide (r.target_keyword ∈ sel) &&
    (match r.postdate with
     | some d => decide (s ≤ d) && decide (d ≤ e)
     | none => false)

/-- Boolean mask of line 85 (news: keyword only). -/
def newsKeep (sel : List String) (r : NewsRow) : Bool :=
  decide (r.target_keyword ∈ sel)

/-- Boolean mask of line 86 (shop: keyword only). -/
def shopKeep (sel : List String) (r : ShopRow) : Bool :=
  decide (r.target_keyword ∈ sel)

/-- The `f_trend` expression of lines 79-81. -/
def f_trend_of (sel : List String) (s e : Nat) (rows : List TrendRow) :
    List TrendRow :=
  rows.filter (trendKeep sel s e)

/-- The `f_blog` expression of lines 82-84. -/
def f_blog_of (sel : List String) (s e : Nat) (rows : List BlogRow) :
    List BlogRow :=
  rows.filter (blogKeep sel s e)

/-- The `f_news` expression of line 85. -/
def f_news_of (sel : List String) (rows : List NewsRow) : List NewsRow :=
  rows.filter (newsKeep sel)

/-- The `f_shop` expression of line 86. -/
def f_shop_of (sel : List String) (rows : List ShopRow) : List ShopRow :=
  rows.filter (shopKeep sel)

/-- Access a column of a table: raises `KeyError` on the column-less empty
frame, as `pd.DataFrame()['target_keyword']` does. -/
def colGet (t : PTable α) : Except PyErr (List α) :=
  match t with
  | none => Except.error (PyErr.keyError "target_keyword")
  | some l => Except.ok l

/-- The filter block of lines 77-88.  When the date range has two
elements, each table's columns are accessed in source order (trend line
79, blog line 82, news line 85, shop line 86) - the first column-less
table raises `KeyError`; otherwise all four tables pass through
unfiltered. -/
def runFilters (blog_df : PTable BlogRow) (shop_df : PTable ShopRow)
    (trend_df : PTable TrendRow) (news_df : PTable NewsRow)
    (sel : List String) (date_range : List Nat) :
    Except PyErr
      (PTable BlogRow × PTable ShopRow × PTable TrendRow × PTable NewsRow) :=
  match date_range with
  | [s, e] =>
    match trend_df with
    | none => Except.error (PyErr.keyError "target_keyword")
    | some trows =>
      match blog_df with
      | none => Except.error (PyErr.keyError "target_keyword")
      | some brows =>
        match news_df with
        | none => Except.error (PyErr.keyError "target_keyword")
        | some nrows =>
          match shop_df with
          | none => Except.error (PyErr.keyError "target_keyword")
          | some shrows =>
            Except.ok
              (some (f_blog_of sel s e brows),
               some (f_shop_of sel shrows),
               some (f_trend_of sel s e trows),
               some (f_news_of sel nrows))
  | _ => Except.ok (blog_df, shop_df, trend_df, news_df)

/-- The module-level pipeline up to the filtered tables: load (line 61),
sidebar date widget (lines 69-74), filter block (lines 77-88).
`userSel` and `userRange` are the widget values. -/
def scriptFilters (files : List RawFile) (userSel : List String)
    (userRange : List Nat) :
    Except PyErr
      (PTable BlogRow × PTable ShopRow × PTable TrendRow × PTable NewsRow) :=
  let t := load_and_preprocess_data files
  runFilters t.1 t.2.1 t.2.2.1 t.2.2.2 userSel
    (date_range_of t.2.2.1 userRange)

/-- C5: `shopping_trend_foo_20240101.csv` extracts keyword `foo`, is
classified as trend, and is never classified as shop; a one-file load
lands its rows in the trend table only. -/
theorem c5_trend_precedence :
    extractKeyword "shopping_trend_foo_20240101.csv" = some "foo" ∧
    classify "shopping_trend_foo_20240101.csv" = some Category.trend ∧
    classify "shopping_trend_foo_20240101.csv" ≠ some Category.shop ∧
    load_and_preprocess_data
        [⟨"shopping_trend_foo_20240101.csv", [trendRaw (some 20240101) 55]⟩] =
      (none, none, some [⟨"foo", some 20240101, 55⟩], none) := by
  decide

/-- C1: with one trend file loaded and zero blog files, the filter block
itself raises `KeyError('target_keyword')` at line 82 when the
two-element date range is active, instead of letting the blog section
degrade to its "no data" notice. -/
theorem c1_missing_category_keyerror :
    scriptFilters
        [⟨"shopping_trend_sunglasses_20240101.csv", [trendRaw (some 20240101) 80]⟩]
        ["sunglasses"] [20240101, 20240131] =
      Except.error (PyErr.keyError "target_keyword") := by
  rfl

/-- C10: when the trend table is empty, the selectable keyword list is
empty, the date range is the empty list (so never of length two), and all
four tables pass through the filter block unfiltered. -/
theorem c10_empty_trend_no_filtering (files : List RawFile)
    (userSel : List String) (userRange : List Nat)
    (h : tableEmpty (load_and_preprocess_data files).2.2.1 = true) :
    all_keywords (load_and_preprocess_data files).2.2.1 = [] ∧
    date_range_of (load_and_preprocess_data files).2.2.1 userRange = [] ∧
    scriptFilters files userSel userRange =
      Except.ok (load_and_preprocess_data files) := by
  refine ⟨?_, ?_, ?_⟩
  · simp [all_keywords, h]
  · simp [date_range_of, h]
  · simp only [scriptFilters, date_range_of, h, if_true]
    rfl

/-- Closed instance of `c10_empty_trend_no_filtering`: a directory with a
single blog file has an empty trend table, offers no keywords, and passes
every table through unfiltered. -/
theorem c10_witness :
    all_keywords
        (load_and_preprocess_data
          [⟨"blog_sunglasses_20240101.csv", [blogRaw (some 20240101) "b" none none]⟩]).2.2.1 = [] ∧
    date_range_of
        (load_and_preprocess_data
          [⟨"blog_sunglasses_20240101.csv", [blogRaw (some 20240101) "b" none none]⟩]).2.2.1
        [20240101, 20240131] = [] ∧
    scriptFilters
        [⟨"blog_sunglasses_20240101.csv", [blogRaw (some 20240101) "b" none none]⟩]
        ["sunglasses"] [20240101, 20240131] =
      Except.ok
        (load_and_preprocess_data
          [⟨"blog_sunglasses_20240101.csv", [blogRaw (some 20240101) "b" none none]⟩]) :=
  c10_empty_trend_no_filtering _ _ _ (by decide)

/-- C6: in the active filter block, a record whose `target_keyword` is not
in the selected set is absent from the corresponding filtered table, for
each of the four categories and regardless of the record's dates. -/
theorem c6_keyword_exact_match (sel : List String) (s e : Nat) :
    (∀ (rows : List TrendRow) (r : TrendRow), r.target_keyword ∉ sel →
      r ∉ f_trend_of sel s e rows) ∧
    (∀ (rows : List BlogRow) (r : BlogRow), r.target_keyword ∉ sel →
      r ∉ f_blog_of sel s e rows) ∧
    (∀ (rows : List NewsRow) (r : NewsRow), r.target_keyword ∉ sel →
      r ∉ f_news_of sel rows) ∧
    (∀ (rows : List ShopRow) (r : ShopRow), r.target_keyword ∉ sel →
      r ∉ f_shop_of sel rows) := by
  refine ⟨?_, ?_, ?_, ?_⟩ <;>
    intro rows r hr hmem <;>
    [skip; skip; skip; skip] <;>
    first
    | (rcases List.mem_filter.1 hmem with ⟨-, hkeep⟩
       simp only [trendKeep, blogKeep, newsKeep, shopKeep, Bool.and_eq_true,
         decide_eq_true_eq] at hkeep
       first
       | exact hr hkeep.1
       | exact hr hkeep)

/-- Closed instance of `c6_keyword_exact_match`: a row keyed `"boots"` is
dropped by every filter when only `"sunglasses"` is selected. -/
theorem c6_witness :
    (⟨"boots", some 20240105, 3⟩ : TrendRow) ∉
      f_trend_of ["sunglasses"] 20240101 20240131
        [⟨"boots", some 20240105, 3⟩] ∧
    (⟨"boots", some 20240105, "b", none, none⟩ : BlogRow) ∉
      f_blog_of ["sunglasses"] 20240101 20240131
        [⟨"boots", some 20240105, "b", none, none⟩] ∧
    (⟨"boots", some 20240105, none⟩ : NewsRow) ∉
      f_news_of ["sunglasses"] [⟨"boots", some 20240105, none⟩] ∧
    (⟨"boots", 10, "brandA"⟩ : ShopRow) ∉
      f_shop_of ["sunglasses"] [⟨"boots", 10, "brandA"⟩] := by
  refine ⟨?_, ?_, ?_, ?_⟩
  · exact (c6_keyword_exact_match ["sunglasses"] 20240101 20240131).1
      _ _ (by decide)
  · exact (c6_keyword_exact_match ["sunglasses"] 20240101 20240131).2.1
      _ _ (by decide)
  · exact (c6_keyword_exact_match ["sunglasses"] 20240101 20240131).2.2.1
      _ _ (by decide)
  · exact (c6_keyword_exact_match ["sunglasses"] 20240101 20240131).2.2.2
      _ _ (by decide)

/-- C7: the date-range masks on the trend and blog tables are inclusive on
both ends - a selected-keyword record dated exactly `s` or exactly `e` is
retained. -/
theorem c7_inclusive_bounds (sel : List String) (s e : Nat) (hse : s ≤ e) :
    (∀ (rows : List TrendRow) (r : TrendRow), r ∈ rows →
      r.target_keyword ∈ sel → (r.period = some s ∨ r.period = some e) →
      r ∈ f_trend_of sel s e rows) ∧
    (∀ (rows : List BlogRow) (r : BlogRow), r ∈ rows →
      r.target_keyword ∈ sel → (r.postdate = some s ∨ r.postdate = some e) →
      r ∈ f_blog_of sel s e rows) := by
  constructor
  · intro rows r hmem hsel hdate
    refine List.mem_filter.2 ⟨hmem, ?_⟩
    rcases hdate with h | h <;>
      simp [trendKeep, h, hsel, hse, Nat.le_refl]
  · intro rows r hmem hsel hdate
    refine List.mem_filter.2 ⟨hmem, ?_⟩
    rcases hdate with h | h <;>
      simp [blogKeep, h, hsel, hse, Nat.le_refl]

/-- Closed instance of `c7_inclusive_bounds`: rows dated exactly at each
end of the range survive the trend and blog filters. -/
theorem c7_witness :
    (⟨"sunglasses", some 20240101, 3⟩ : TrendRow) ∈
      f_trend_of ["sunglasses"] 20240101 20240131
        [⟨"sunglasses", some 20240101, 3⟩] ∧
    (⟨"sunglasses", some 20240131, "b", none, none⟩ : BlogRow) ∈
      f_blog_of ["sunglasses"] 20240101 20240131
        [⟨"sunglasses", some 20240131, "b", none, none⟩] := by
  constructor
  · exact (c7_inclusive_bounds ["sunglasses"] 20240101 20240131
      (by decide)).1 _ _ (by decide) (by decide) (Or.inl rfl)
  · exact (c7_inclusive_bounds ["sunglasses"] 20240101 20240131
      (by decide)).2 _ _ (by decide) (by decide) (Or.inr rfl)

/-- First blog file of the C8 scenario: ten rows, postdates Jan 1-Jan 10,
distinct bloggernames. -/
def blogFileA : RawFile :=
  ⟨"blog_sunglasses_20240101.csv",
    (List.range 10).map (fun i => blogRaw (some (20240101 + i)) (toString i) none none)⟩

/-- Second blog file of the C8 scenario: five rows, postdates Feb 1-Feb 5. -/
def blogFileB : RawFile :=
  ⟨"blog_sunglasses_20240201.csv",
    (List.range 5).map (fun i => blogRaw (some (20240201 + i)) (toString (10 + i)) none none)⟩

/-- The blog table obtained by loading the two C8 files together. -/
def c8blog : List BlogRow :=
  rowsOf (load_and_preprocess_data [blogFileA, blogFileB]).1

/-- C8: loading the two blog files yields one 15-row blog table, keyed
`"sunglasses"` throughout; filtering it to [Jan 1, Jan 10] with
`"sunglasses"` selected returns exactly the ten rows that came from the
first file. -/
theorem c8_two_file_scenario :
    (load_and_preprocess_data [blogFileA, blogFileB]).1 = some c8blog ∧
    c8blog.length = 15 ∧
    (∀ r ∈ c8blog, r.target_keyword = "sunglasses") ∧
    f_blog_of ["sunglasses"] 20240101 20240110 c8blog = c8blog.take 10 ∧
    c8blog.take 10 = blogFileA.rows.map (toBlogRow "sunglasses") := by
  decide

/-- The `\w` character class of the sklearn token pattern
`(?u)\b\w\w+\b`, restricted to the ASCII inputs this dashboard feeds it:
alphanumeric or underscore. -/
def isWordChar (c : Char) : Bool := c.isAlphanum || c == '_'

/-- The `lowercase=True` preprocessing of `TfidfVectorizer`. -/
def lowerStr (s : String) : String := String.mk (s.data.map Char.toLower)

/-- Maximal runs of word characters in a character list; `acc` is the
current run, reversed. -/
def splitRunsAux : List Char → List Char → List (List Char)
  | [], acc => if acc.isEmpty then [] else [acc.reverse]
  | c :: cs, acc =>
    if isWordChar c then splitRunsAux cs (c :: acc)
    else if acc.isEmpty then splitRunsAux cs []
    else acc.reverse :: splitRunsAux cs []

/-- sklearn tokenization with the default token pattern: lowercase, then
keep the maximal word-character runs of length at least two. -/
def tokenize (s : String) : List String :=
  ((splitRunsAux (lowerStr s).data []).filter (fun r => 2 ≤ r.length)).map
    (fun r => String.mk r)

/-- All tokens of the collection, in document order. -/
def allTokens (docs : List String) : List String :=
  (docs.map tokenize).flatten

/-- The full fitted vocabulary: distinct tokens, sorted alphabetically
(`CountVectorizer._sort_features`). -/
def fullVocab (docs : List String) : List String :=
  List.insertionSort strLe (allTokens docs).dedup

/-- Total number of occurrences of `t` across the corpus - the `tfs =
X.sum(axis=0)` used by `CountVectorizer._limit_features`. -/
def termCount (docs : List String) (t : String) : Nat :=
  (allTokens docs).count t

/-- Number of documents containing `t` (aggregate document frequency). -/
def docFreq (docs : List String) (t : String) : Nat :=
  (docs.filter (fun d => decide (t ∈ tokenize d))).length

/-- Comparison `-tfs` used to rank vocabulary terms for `max_features`:
`a` precedes `b` when `a`'s corpus term count is at least `b`'s. -/
def tfGe (docs : List String) (a b : String) : Prop :=
  termCount docs b ≤ termCount docs a

instance (docs : List String) : DecidableRel (tfGe docs) :=
  fun a b => inferInstanceAs (Decidable (termCount docs b ≤ termCount docs a))

instance (docs : List String) : IsTotal String (tfGe docs) :=
  ⟨fun a b => Nat.le_total (termCount docs b) (termCount docs a)⟩

instance (docs : List String) : IsTrans String (tfGe docs) :=
  ⟨fun _ _ _ h1 h2 => le_trans h2 h1⟩

/-- Vocabulary sorted by decreasing corpus term count (the `argsort` of
`_limit_features`; ties resolved alphabetically in this model, a choice
numpy leaves unspecified). -/
def tfSorted (docs : List String) : List String :=
  List.insertionSort (tfGe docs) (fullVocab docs)

/-- Model of `max_features=k`: when the vocabulary exceeds `k`, keep only the `k`
terms of highest corpus term count; the surviving vocabulary stays in
alphabetical order (mask-based selection). -/
def limitVocab (docs : List String) (k : Nat) : List String :=
  if (fullVocab docs).length ≤ k then fullVocab docs
  else (fullVocab docs).filter (fun t => decide (t ∈ (tfSorted docs).take k))

/-- Smoothed inverse document frequency of sklearn's default
configuration: `ln((1+n)/(1+df)) + 1`. -/
noncomputable def idf (docs : List String) (t : String) : ℝ :=
  Real.log ((1 + (docs.length : ℝ)) / (1 + (docFreq docs t : ℝ))) + 1

/-- Unnormalized TF-IDF entry for document `d` and term `t`:
raw in-document count times inverse document frequency. -/
noncomputable def rawWeight (docs : List String) (d t : String) : ℝ :=
  ((tokenize d).count t : ℝ) * idf docs t

/-- Euclidean norm of document `d`'s row over the retained vocabulary
(`norm='l2'`). -/
noncomputable def docNorm (docs : List String) (k : Nat) (d : String) : ℝ :=
  Real.sqrt (((limitVocab docs k).map (fun t => rawWeight docs d t ^ 2)).sum)

/-- Normalized TF-IDF entry (an all-zero row stays all zero: in Lean
`x / 0 = 0`, matching sklearn's skip of zero-norm rows). -/
noncomputable def weight (docs : List String) (k : Nat) (d t : String) : ℝ :=
  rawWeight docs d t / docNorm docs k d

/-- Column sum `tfidf_mat.sum(axis=0)` for term `t`: the score rendered
by the dashboard. -/
noncomputable def score (docs : List String) (k : Nat) (t : String) : ℝ :=
  (docs.map (fun d => weight docs k d t)).sum

/-- Composition `fit_transform`, `get_feature_names_out`, column sums: `none` models
the `ValueError` sklearn raises on an empty vocabulary, `some` the
`(keyword, score)` table built on lines 129 / 177. -/
noncomputable def rankTerms (docs : List String) (k : Nat) :
    Option (List (String × ℝ)) :=
  if (fullVocab docs).isEmpty then none
  else some ((limitVocab docs k).map (fun t => (t, score docs k t)))

/-- Outcome of a TF-IDF try/except block: a rendered chart, or the
"not enough data" message of the except branch. -/
inductive TfidfOutcome where
  | chart : List (String × ℝ) → TfidfOutcome
  | insufficient : TfidfOutcome

/-- The tab-2 try/except block (lines 126-134): rank the blog
descriptions (`fillna('')`, `max_features=30`), falling back to the
insufficient-data message when the vectorizer raises. -/
noncomputable def blogTfidfBlock (f_blog : List BlogRow) : TfidfOutcome :=
  match rankTerms (f_blog.map (fun r => r.description.getD "")) 30 with
  | none => TfidfOutcome.insufficient
  | some r => TfidfOutcome.chart r

/-- The tab-4 try/except block (lines 174-182): rank the news titles
(`fillna('')`, `max_features=25`). -/
noncomputable def newsTfidfBlock (f_news : List NewsRow) : TfidfOutcome :=
  match rankTerms (f_news.map (fun r => r.title.getD "")) 25 with
  | none => TfidfOutcome.insufficient
  | some r => TfidfOutcome.chart r

/-- A string that is empty or whitespace-only. -/
def isBlankStr (s : String) : Bool := s.data.all (fun c => c.isWhitespace)

theorem notWordChar_of_ws (c : Char) (h : c.isWhitespace = true) :
    isWordChar c.toLower = false := by
  simp only [Char.isWhitespace, Bool.or_eq_true, decide_eq_true_eq] at h
  rcases h with ((h | h) | h) | h <;> subst h <;> decide

theorem splitRunsAux_no_word :
    ∀ cs : List Char, (∀ c ∈ cs, isWordChar c = false) →
      splitRunsAux cs [] = []
  | [], _ => rfl
  | c :: cs, h => by
    have hc : isWordChar c = false := h c (List.mem_cons_self c cs)
    have ih := splitRunsAux_no_word cs (fun x hx => h x (List.mem_cons_of_mem c hx))
    simp [splitRunsAux, hc, ih]

theorem tokenize_blank (s : String) (h : isBlankStr s = true) :
    tokenize s = [] := by
  have hws : ∀ c ∈ s.data, c.isWhitespace = true := by
    simpa [isBlankStr, List.all_eq_true] using h
  have hnw : ∀ c ∈ (lowerStr s).data, isWordChar c = false := by
    intro c hc
    simp only [lowerStr] at hc
    rcases List.mem_map.1 hc with ⟨c0, hc0, rfl⟩
    exact notWordChar_of_ws c0 (hws c0 hc0)
  simp [tokenize, splitRunsAux_no_word _ hnw]

theorem allTokens_blank :
    ∀ docs : List String, (∀ d ∈ docs, tokenize d = []) →
      allTokens docs = []
  | [], _ => rfl
  | d :: ds, h => by
    have ih := allTokens_blank ds (fun x hx => h x (List.mem_cons_of_mem d hx))
    have hd := h d (List.mem_cons_self d ds)
    simp [allTokens] at ih ⊢
    exact ⟨hd, ih⟩

theorem rankTerms_blank (docs : List String) (k : Nat)
    (h : ∀ d ∈ docs, isBlankStr d = true) : rankTerms docs k = none := by
  have hall : allTokens docs = [] :=
    allTokens_blank docs (fun d hd => tokenize_blank d (h d hd))
  have hv : fullVocab docs = [] := by
    rw [fullVocab, hall]
    rfl
  simp [rankTerms, hv]

/-- C2: on a collection that is empty or all-blank, the ranker signals
the no-data condition (`none`), and both TF-IDF blocks render the
insufficient-data message - no crash, no non-empty ranking. -/
theorem c2_blank_insufficient (docs : List String) (k : Nat)
    (f_blog : List BlogRow) (f_news : List NewsRow)
    (hdocs : ∀ d ∈ docs, isBlankStr d = true)
    (hb : ∀ r ∈ f_blog, isBlankStr (r.description.getD "") = true)
    (hn : ∀ r ∈ f_news, isBlankStr (r.title.getD "") = true) :
    rankTerms docs k = none ∧
    blogTfidfBlock f_blog = TfidfOutcome.insufficient ∧
    newsTfidfBlock f_news = TfidfOutcome.insufficient := by
  refine ⟨rankTerms_blank docs k hdocs, ?_, ?_⟩
  · have hrb : ∀ d ∈ f_blog.map (fun r => r.description.getD ""),
        isBlankStr d = true := by
      intro d hd
      rcases List.mem_map.1 hd with ⟨r, hr, rfl⟩
      exact hb r hr
    simp [blogTfidfBlock, rankTerms_blank _ 30 hrb]
  · have hrn : ∀ d ∈ f_news.map (fun r => r.title.getD ""),
        isBlankStr d = true := by
      intro d hd
      rcases List.mem_map.1 hd with ⟨r, hr, rfl⟩
      exact hn r hr
    simp [newsTfidfBlock, rankTerms_blank _ 25 hrn]

/-- Closed instance of `c2_blank_insufficient` at a two-document blank
collection, a one-row blog table with a missing description, and an
empty news table. -/
theorem c2_witness :
    rankTerms ["", "   "] 30 = none ∧
    blogTfidfBlock [⟨"sunglasses", none, "b", none, none⟩] =
      TfidfOutcome.insufficient ∧
    newsTfidfBlock [] = TfidfOutcome.insufficient :=
  c2_blank_insufficient ["", "   "] 30
    [⟨"sunglasses", none, "b", none, none⟩] []
    (by decide) (by decide) (by decide)

theorem fullVocab_nodup (docs : List String) : (fullVocab docs).Nodup :=
  ((List.perm_insertionSort _ _).nodup_iff).2 (List.nodup_dedup _)

theorem tfSorted_perm (docs : List String) :
    List.Perm (tfSorted docs) (fullVocab docs) :=
  List.perm_insertionSort _ _

theorem tfSorted_nodup (docs : List String) : (tfSorted docs).Nodup :=
  (tfSorted_perm docs).nodup_iff.2 (fullVocab_nodup docs)

/-- In a list sorted (descending, for our uses) by `r`, every kept element
of `take k` is related to every dropped element of `drop k`. -/
theorem sorted_take_drop_rel {α : Type} (r : α → α → Prop) [DecidableRel r]
    [IsTotal α r] [IsTrans α r] (l : List α) (k : Nat) :
    ∀ x ∈ (List.insertionSort r l).take k,
      ∀ y ∈ (List.insertionSort r l).drop k, r x y := by
  have hs : List.Sorted r (List.insertionSort r l) :=
    List.sorted_insertionSort r l
  have hp : List.Pairwise r
      ((List.insertionSort r l).take k ++ (List.insertionSort r l).drop k) := by
    rw [List.take_append_drop]
    exact hs
  exact (List.pairwise_append.1 hp).2.2

theorem limitVocab_subset (docs : List String) (k : Nat) :
    limitVocab docs k ⊆ fullVocab docs := by
  unfold limitVocab
  by_cases h : (fullVocab docs).length ≤ k
  · rw [if_pos h]
    exact fun x hx => hx
  · rw [if_neg h]
    exact fun x hx => (List.mem_filter.1 hx).1

theorem limitVocab_nodup (docs : List String) (k : Nat) :
    (limitVocab docs k).Nodup := by
  unfold limitVocab
  by_cases h : (fullVocab docs).length ≤ k
  · rw [if_pos h]
    exact fullVocab_nodup docs
  · rw [if_neg h]
    exact (fullVocab_nodup docs).filter _

theorem limitVocab_length (docs : List String) (k : Nat) :
    (limitVocab docs k).length = min k (fullVocab docs).length := by
  unfold limitVocab
  by_cases h : (fullVocab docs).length ≤ k
  · rw [if_pos h, Nat.min_eq_right h]
  · rw [if_neg h]
    push_neg at h
    have hslen : (tfSorted docs).length = (fullVocab docs).length :=
      (tfSorted_perm docs).length_eq
    have htklen : ((tfSorted docs).take k).length = k := by
      rw [List.length_take, hslen]
      exact Nat.min_eq_left (Nat.le_of_lt h)
    have hsub1 : (fullVocab docs).filter
        (fun t => decide (t ∈ (tfSorted docs).take k)) ⊆
          (tfSorted docs).take k := by
      intro x hx
      have hx2 := (List.mem_filter.1 hx).2
      simpa using hx2
    have hnd1 : ((fullVocab docs).filter
        (fun t => decide (t ∈ (tfSorted docs).take k))).Nodup :=
      (fullVocab_nodup docs).filter _
    have hle1 := (hnd1.subperm hsub1).length_le
    have hsub2 : (tfSorted docs).take k ⊆ (fullVocab docs).filter
        (fun t => decide (t ∈ (tfSorted docs).take k)) := by
      intro x hx
      have hxv : x ∈ fullVocab docs :=
        (tfSorted_perm docs).subset (List.take_subset k _ hx)
      exact List.mem_filter.2 ⟨hxv, by simpa using hx⟩
    have hnd2 : ((tfSorted docs).take k).Nodup :=
      (tfSorted_nodup docs).sublist (List.take_sublist k _)
    have hle2 := (hnd2.subperm hsub2).length_le
    rw [htklen] at hle1 hle2
    omega

theorem limitVocab_dominates (docs : List String) (k : Nat) :
    ∀ t ∈ limitVocab docs k, ∀ u ∈ fullVocab docs,
      u ∉ limitVocab docs k → termCount docs u ≤ termCount docs t := by
  intro t ht u hu hnu
  unfold limitVocab at ht hnu
  by_cases h : (fullVocab docs).length ≤ k
  · rw [if_pos h] at hnu
    exact absurd hu hnu
  · rw [if_neg h] at ht hnu
    have htk : t ∈ (tfSorted docs).take k := by
      have := (List.mem_filter.1 ht).2
      simpa using this
    have hutk : u ∉ (tfSorted docs).take k := by
      intro hc
      exact hnu (List.mem_filter.2 ⟨hu, by simpa using hc⟩)
    have hus : u ∈ tfSorted docs := (tfSorted_perm docs).mem_iff.2 hu
    have hdrop : u ∈ (tfSorted docs).drop k := by
      have hsplit : u ∈ (tfSorted docs).take k ++ (tfSorted docs).drop k := by
        rw [List.take_append_drop]
        exact hus
      rcases List.mem_append.1 hsplit with h1 | h1
      · exact absurd h1 hutk
      · exact h1
    exact sorted_take_drop_rel (tfGe docs) (fullVocab docs) k t htk u hdrop

theorem docFreq_le_length (docs : List String) (t : String) :
    docFreq docs t ≤ docs.length :=
  List.length_filter_le _ _

theorem idf_nonneg (docs : List String) (t : String) : 0 ≤ idf docs t := by
  have hc : (docFreq docs t : ℝ) ≤ (docs.length : ℝ) :=
    Nat.cast_le.2 (docFreq_le_length docs t)
  have hpos : (0 : ℝ) < 1 + (docFreq docs t : ℝ) := by positivity
  have hlog : 0 ≤
      Real.log ((1 + (docs.length : ℝ)) / (1 + (docFreq docs t : ℝ))) :=
    Real.log_nonneg ((one_le_div hpos).2 (by linarith))
  unfold idf
  linarith

theorem weight_nonneg (docs : List String) (k : Nat) (d t : String) :
    0 ≤ weight docs k d t := by
  unfold weight rawWeight docNorm
  exact div_nonneg (mul_nonneg (Nat.cast_nonneg _) (idf_nonneg docs t))
    (Real.sqrt_nonneg _)

theorem score_nonneg (docs : List String) (k : Nat) (t : String) :
    0 ≤ score docs k t := by
  apply List.sum_nonneg
  intro x hx
  rcases List.mem_map.1 hx with ⟨d, hd, rfl⟩
  exact weight_nonneg docs k d t

/-- C3: whenever ranking succeeds on a non-empty collection, the rendered
ranking has at most `max_terms` entries, its terms are pairwise distinct,
and every score (the column sum of TF-IDF weights) is nonnegative. -/
theorem c3_ranking_bounded_unique_nonneg (docs : List String) (k : Nat)
    (ranking : List (String × ℝ)) (_hne : docs ≠ [])
    (h : rankTerms docs k = some ranking) :
    ranking.length ≤ k ∧ (ranking.map Prod.fst).Nodup ∧
      ∀ p ∈ ranking, 0 ≤ p.2 := by
  unfold rankTerms at h
  by_cases hv : (fullVocab docs).isEmpty = true
  · rw [if_pos hv] at h
    cases h
  · rw [if_neg hv] at h
    have hr : ranking =
        (limitVocab docs k).map (fun t => (t, score docs k t)) :=
      (Option.some.inj h).symm
    subst hr
    refine ⟨?_, ?_, ?_⟩
    · rw [List.length_map, limitVocab_length]
      exact Nat.min_le_left _ _
    · have hm : ((limitVocab docs k).map
          (fun t => (t, score docs k t))).map Prod.fst = limitVocab docs k := by
        rw [List.map_map]
        exact List.map_id _
      rw [hm]
      exact limitVocab_nodup docs k
    · intro p hp
      rcases List.mem_map.1 hp with ⟨t, ht, rfl⟩
      exact score_nonneg docs k t

/-- Closed instance of `c3_ranking_bounded_unique_nonneg` on a concrete
two-document collection. -/
theorem c3_witness :
    (["ab cd", "ab ef"] : List String) ≠ [] ∧
    ∃ r, rankTerms ["ab cd", "ab ef"] 30 = some r ∧
      (r.length ≤ 30 ∧ (r.map Prod.fst).Nodup ∧ ∀ p ∈ r, 0 ≤ p.2) := by
  have h : rankTerms ["ab cd", "ab ef"] 30 =
      some ((limitVocab ["ab cd", "ab ef"] 30).map
        (fun t => (t, score ["ab cd", "ab ef"] 30 t))) := by
    unfold rankTerms
    rw [if_neg (by decide)]
  exact ⟨by decide, _, h,
    c3_ranking_bounded_unique_nonneg ["ab cd", "ab ef"] 30 _ (by decide) h⟩

/-- A document whose 25 two-letter terms each occur once. -/
def azDoc : String :=
  "aa ab ac ad ae af ag ah ai aj ak al am an ao ap aq ar as at au av aw ax ay"

/-- Collection with 26 terms: `zz` occurs 3 times in 1 document
(document frequency 1), each `a?` term occurs twice across 2 documents
(document frequency 2). -/
def cexDocs : List String := ["zz zz zz", azDoc, azDoc]

/-- C4 counterexample: with `max_features = 25` the pre-filter retains
`zz` - the term with the strictly lowest document frequency - because
selection orders by corpus term count, and consequently drops some term
whose document frequency is strictly higher.  This refutes the claim that
exactly the 25 terms of highest aggregate document frequency are
retained. -/
theorem c4_counterexample :
    "zz" ∈ limitVocab cexDocs 25 ∧
    (∃ u ∈ fullVocab cexDocs, u ∉ limitVocab cexDocs 25 ∧
      docFreq cexDocs "zz" < docFreq cexDocs u) := by
  decide

/-- C4 amended: the pre-filter retains exactly
`min max_terms |vocabulary|` distinct vocabulary terms, every retained
term's corpus term count (total occurrences) is at least that of every
excluded term, and exactly the retained terms are scored. -/
theorem c4_amended_tf_prefilter (docs : List String) (k : Nat) :
    limitVocab docs k ⊆ fullVocab docs ∧
    (limitVocab docs k).length = min k (fullVocab docs).length ∧
    (∀ t ∈ limitVocab docs k, ∀ u ∈ fullVocab docs,
      u ∉ limitVocab docs k → termCount docs u ≤ termCount docs t) ∧
    (∀ r, rankTerms docs k = some r → r.map Prod.fst = limitVocab docs k) := by
  refine ⟨limitVocab_subset docs k, limitVocab_length docs k,
    limitVocab_dominates docs k, ?_⟩
  intro r hr
  unfold rankTerms at hr
  by_cases hv : (fullVocab docs).isEmpty = true
  · rw [if_pos hv] at hr
    cases hr
  · rw [if_neg hv] at hr
    have hre : r = (limitVocab docs k).map (fun t => (t, score docs k t)) :=
      (Option.some.inj hr).symm
    subst hre
    rw [List.map_map]
    exact List.map_id _

/-- Closed instance of `c4_amended_tf_prefilter`: with `max_features = 1`
on a two-term collection, the retained term dominates the excluded term
by corpus term count. -/
theorem c4_amended_witness :
    termCount ["aa aa", "bb"] "bb" ≤ termCount ["aa aa", "bb"] "aa" :=
  (c4_amended_tf_prefilter ["aa aa", "bb"] 1).2.2.1 "aa" (by decide) "bb"
    (by decide) (by decide)

/-- Descending order on `value_counts` entries: `a` precedes `b` when
`a`'s count is at least `b`'s. -/
def cntGe (a b : String × Nat) : Prop := b.2 ≤ a.2

instance : DecidableRel cntGe :=
  fun a b => inferInstanceAs (Decidable (b.2 ≤ a.2))

instance : IsTotal (String × Nat) cntGe :=
  ⟨fun a b => Nat.le_total b.2 a.2⟩

instance : IsTrans (String × Nat) cntGe :=
  ⟨fun _ _ _ h1 h2 => le_trans h2 h1⟩

/-- The `brand` column of a shop table. -/
def brandList (rows : List ShopRow) : List String :=
  rows.map (fun r => r.brand)

/-- The distinct brands paired with their row counts. -/
def brandCounts (rows : List ShopRow) : List (String × Nat) :=
  (brandList rows).dedup.map (fun b => (b, (brandList rows).count b))

/-- Model of `f_shop['brand'].value_counts()` (line 154): brand/count pairs in
descending count order. -/
def value_counts_sorted (rows : List ShopRow) : List (String × Nat) :=
  List.insertionSort cntGe (brandCounts rows)

/-- Model of `f_shop['brand'].value_counts().head(10).index` (line 154). -/
def top_brands (rows : List ShopRow) : List String :=
  ((value_counts_sorted rows).take 10).map Prod.fst

/-- Model of `f_shop[f_shop['brand'].isin(top_brands)]` (line 155). -/
def f_brand (rows : List ShopRow) : List ShopRow :=
  rows.filter (fun r => decide (r.brand ∈ top_brands rows))

theorem vcs_perm (rows : List ShopRow) :
    List.Perm (value_counts_sorted rows) (brandCounts rows) :=
  List.perm_insertionSort _ _

theorem brandCounts_nodup (rows : List ShopRow) :
    (brandCounts rows).Nodup :=
  List.Nodup.map (fun _ _ hxy => congrArg Prod.fst hxy) (List.nodup_dedup _)

theorem vcs_nodup (rows : List ShopRow) :
    (value_counts_sorted rows).Nodup :=
  (vcs_perm rows).nodup_iff.2 (brandCounts_nodup rows)

/-- C9: on a shop table with exactly 11 distinct brands of pairwise
distinct row counts, the top-10-brands restriction of the price-range
chart keeps a row exactly when its brand is not the unique
lowest-count brand. -/
theorem c9_top10_excludes_min (rows : List ShopRow) (bmin : String)
    (h11 : (brandList rows).dedup.length = 11)
    (hpd : ∀ a ∈ (brandList rows).dedup, ∀ b ∈ (brandList rows).dedup,
      a ≠ b → (brandList rows).count a ≠ (brandList rows).count b)
    (hmem : bmin ∈ (brandList rows).dedup)
    (hmin : ∀ b ∈ (brandList rows).dedup,
      (brandList rows).count bmin ≤ (brandList rows).count b) :
    ∀ r ∈ rows, (r ∈ f_brand rows ↔ r.brand ≠ bmin) := by
  have hps := vcs_perm rows
  have hsnd := vcs_nodup rows
  have hslen : (value_counts_sorted rows).length = 11 := by
    rw [hps.length_eq]
    simp only [brandCounts, List.length_map]
    exact h11
  have hdl : ((value_counts_sorted rows).drop 10).length = 1 := by
    rw [List.length_drop, hslen]
  obtain ⟨em2, hdrop⟩ := List.length_eq_one.1 hdl
  have hem2drop : em2 ∈ (value_counts_sorted rows).drop 10 := by
    rw [hdrop]
    exact List.mem_singleton_self em2
  have hem2 : em2 = (bmin, (brandList rows).count bmin) := by
    obtain ⟨b2, hb2, hb2eq⟩ :=
      List.mem_map.1 (hps.subset (List.drop_subset 10 _ hem2drop))
    by_cases hbeq : b2 = bmin
    · subst hbeq
      exact hb2eq.symm
    · exfalso
      have hlt : (brandList rows).count bmin < (brandList rows).count b2 :=
        lt_of_le_of_ne (hmin b2 hb2) (hpd bmin hmem b2 hb2 (Ne.symm hbeq))
      have hemP : (bmin, (brandList rows).count bmin) ∈ brandCounts rows :=
        List.mem_map_of_mem _ hmem
      have hemS : (bmin, (brandList rows).count bmin) ∈
          value_counts_sorted rows := hps.mem_iff.2 hemP
      have hemTD : (bmin, (brandList rows).count bmin) ∈
          (value_counts_sorted rows).take 10 ++
            (value_counts_sorted rows).drop 10 := by
        rw [List.take_append_drop]
        exact hemS
      rcases List.mem_append.1 hemTD with htk | hdk
      · have hge := sorted_take_drop_rel cntGe (brandCounts rows) 10 _ htk
          em2 hem2drop
        rw [← hb2eq] at hge
        simp only [cntGe] at hge
        exact absurd hge (not_le.2 hlt)
      · rw [hdrop] at hdk
        have heq := List.mem_singleton.1 hdk
        rw [← hb2eq] at heq
        exact hbeq (congrArg Prod.fst heq).symm
  have hnotint : (bmin, (brandList rows).count bmin) ∉
      (value_counts_sorted rows).take 10 := by
    intro hc
    have hnd2 : List.Pairwise (fun a b => a ≠ b)
        ((value_counts_sorted rows).take 10 ++
          (value_counts_sorted rows).drop 10) := by
      rw [List.take_append_drop]
      exact hsnd
    have hdm : (bmin, (brandList rows).count bmin) ∈
        (value_counts_sorted rows).drop 10 := by
      rw [hdrop, hem2]
      exact List.mem_singleton_self _
    exact ((List.pairwise_append.1 hnd2).2.2 _ hc _ hdm) rfl
  have hbmin_not_top : bmin ∉ top_brands rows := by
    intro hc
    obtain ⟨e, he, hfst⟩ := List.mem_map.1 hc
    obtain ⟨b3, hb3, hb3eq⟩ :=
      List.mem_map.1 (hps.subset (List.take_subset 10 _ he))
    have hb3bmin : b3 = bmin := by
      rw [← hb3eq] at hfst
      exact hfst
    apply hnotint
    rw [← hb3eq, hb3bmin] at he
    exact he
  have hother_top : ∀ b ∈ (brandList rows).dedup, b ≠ bmin →
      b ∈ top_brands rows := by
    intro b hb hbne
    have hbp : (b, (brandList rows).count b) ∈ brandCounts rows :=
      List.mem_map_of_mem _ hb
    have hbs := hps.mem_iff.2 hbp
    have hbTD : (b, (brandList rows).count b) ∈
        (value_counts_sorted rows).take 10 ++
          (value_counts_sorted rows).drop 10 := by
      rw [List.take_append_drop]
      exact hbs
    rcases List.mem_append.1 hbTD with htk | hdk
    · exact List.mem_map_of_mem Prod.fst htk
    · rw [hdrop, hem2] at hdk
      have heq := List.mem_singleton.1 hdk
      exact absurd (congrArg Prod.fst heq) hbne
  intro r hr
  constructor
  · intro hf hctr
    have hbt : r.brand ∈ top_brands rows := by
      have hkeep := (List.mem_filter.1 hf).2
      simpa using hkeep
    rw [hctr] at hbt
    exact hbmin_not_top hbt
  · intro hbne
    have hbrd : r.brand ∈ (brandList rows).dedup :=
      List.mem_dedup.2 (List.mem_map_of_mem _ hr)
    refine List.mem_filter.2 ⟨hr, ?_⟩
    simpa using hother_top _ hbrd hbne

/-- Concrete shop table with 11 distinct brands whose row counts are the
pairwise distinct values 1..11 (brand `b0` is the unique minimum). -/
def c9rows : List ShopRow :=
  ((List.range 11).map (fun i =>
    List.replicate (i + 1) (⟨"kw", 100, "b" ++ toString i⟩ : ShopRow))).flatten

/-- Closed instance of `c9_top10_excludes_min` at `c9rows`: a row of the
lowest-frequency brand `b0` is excluded from the brand price-range
restriction, while a row of the top brand `b10` is retained. -/
theorem c9_witness :
    (⟨"kw", 100, "b0"⟩ : ShopRow) ∉ f_brand c9rows ∧
    (⟨"kw", 100, "b10"⟩ : ShopRow) ∈ f_brand c9rows := by
  have h := c9_top10_excludes_min c9rows "b0" (by decide) (by decide)
    (by decide) (by decide)
  constructor
  · intro hc
    exact ((h _ (by decide)).1 hc) rfl
  · exact (h _ (by decide)).2 (by decide)
